import Mathlib

/-!
# Verification of the tdm-python cooperative-concurrency core

Shallow embedding of `src/tdmclient/clientasync.py` (class `ClientAsync`):
the suspension primitives (`sleep`, `wait_for_node`, `wait_for_status`,
`send_msg_and_get_result`), the lock guard produced by `lock`, the derived
operation `watch`, and the trampoline driver `run_async_program`.

Modelling conventions:
* wall-clock (`time.monotonic`) values and sleep intervals are rationals;
  `time.sleep` is the only thing that advances the clock (message pumping
  is treated as instantaneous);
* the external Session collaborator is represented by what the core
  observes of it: `process_waiting_messages()` is a per-tick boolean
  (did the pump make progress) together with the node list it leaves
  behind, and send operations append a `Request` to an outbox;
* the unbounded `while` loops of the generators are embedded as
  fuel-indexed step functions returning `Option`: `none` means the loop
  was still running when the fuel ran out, `some` carries the value the
  Python function returns.
-/

/-- The base poll interval `ClientAsync.DEFAULT_SLEEP = 0.1` (seconds). -/
def DEFAULT_SLEEP : ℚ := 1 / 10

/-- A remote node record, with the fields the embedded code reads:
`node_id_str` and `status` (an entry of `self.nodes`). -/
structure Node where
  node_id_str : String
  status : Int
  deriving DecidableEq, Repr

/-- The accessor `ClientAsync.first_node`:
`self.nodes[0] if len(self.nodes) > 0 else None`. -/
def first_node (nodes : List Node) : Option Node :=
  nodes.head?

/-- An outbound request sent to the TDM: the send operations the embedded
code invokes (`send_lock_node`, `send_unlock_node`, `watch_node`). -/
inductive Request where
  | lockNode (node_id_str : String)
  | unlockNode (node_id_str : String)
  | watchNode (node_id_str : String) (flags : Nat)
  deriving DecidableEq, Repr

/-- Number of unlock requests for node id `n` in an outbox. -/
def countUnlock (n : String) (out : List Request) : Nat :=
  out.countP (fun r => decide (r = Request.unlockNode n))

/-- The structured error descriptor carried by a failed reply
(code and message, per the external-interface contract). -/
structure Err where
  code : Int
  message : String
  deriving DecidableEq, Repr

/-! ## `send_msg_and_get_result` (request correlator) -/

/-- The captured closure state of `send_msg_and_get_result`:
`result = None; done = False` before `send_fun` runs, written by `notify`. -/
structure FutureState (α : Type) where
  result : Option α
  done : Bool
  deriving DecidableEq, Repr

/-- The fresh future minted by `send_msg_and_get_result` before calling
`send_fun`: `result = None`, `done = False`. -/
def freshFuture (α : Type) : FutureState α :=
  { result := none, done := false }

/-- The `notify` callback of `send_msg_and_get_result`:
`result = r; done = True`, unconditionally, on every invocation. -/
def notify (s : FutureState α) (r : α) : FutureState α :=
  { result := some r, done := true }

/-- The `while not done:` loop of `send_msg_and_get_result`, with the
yields counted.  `env k` is the reply (if any) that the pump of tick `k`
delivers to this future.  Entered with the future's state after
`send_fun(notify)` returned; yields `(returned result, number of poll
ticks taken)`. -/
def smgr_loop (env : Nat → Option α) : FutureState α → Nat → Nat → Option (Option α × Nat)
  | s, fuel, k =>
    if s.done then some (s.result, k)
    else
      match fuel with
      | 0 => none
      | fuel + 1 =>
          match env k with
          | some r => smgr_loop env (notify s r) fuel (k + 1)
          | none => smgr_loop env s fuel (k + 1)

/-- The primitive `send_msg_and_get_result`: mint the future, call the
send operation (which invokes `notify` synchronously exactly when
`syncReply = some r`), then run the waiting loop. -/
def send_msg_and_get_result (syncReply : Option α) (env : Nat → Option α)
    (fuel : Nat) : Option (Option α × Nat) :=
  let s0 := freshFuture α
  let s1 := match syncReply with
            | some r => notify s0 r
            | none => s0
  smgr_loop env s1 fuel 0

/-- The delay of one unsatisfied tick of `send_msg_and_get_result`: the
loop body is `yield; sleep(self.DEFAULT_SLEEP); self.process_waiting_messages()`,
so the base interval is slept whatever progress the pump then makes. -/
def smgr_tick_delay (progress : Bool) : ℚ :=
  DEFAULT_SLEEP

/-! ## `watch` -/

/-- The derived operation `ClientAsync.watch(node_id_str, variables=True,
events=True)`: sets `flags = 0x3f` ("temporary, for tests only") and
sends `watch_node(node_id_str, flags)`.  The value returned here is the
request it hands to the send operation. -/
def watch (node_id_str : String) (vars events : Bool) : Request :=
  let flags : Nat := 0x3f
  Request.watchNode node_id_str flags

/-! ## The lock guard and `lock` -/

/-- The `Lock` object built inside `ClientAsync.lock`: bound to the node
id it was acquired for (the client it sends through is represented by
the outboxes below). -/
structure LockGuard where
  node_id_str : String
  deriving DecidableEq, Repr

/-- The scope-exit logic `Lock.__exit__`: calls
`send_unlock_node(node_id_str)` - on every invocation, with no
released-flag guarding it. -/
def lockExit (g : LockGuard) (out : List Request) : List Request :=
  out ++ [Request.unlockNode g.node_id_str]

/-- A `with lock() as node_id: body` scope around an already-acquired
guard: the body appends its own requests and either completes or raises
(`bodyFails`); `__exit__` runs exactly once on both paths and the
failure, if any, propagates (second component). -/
def withGuard (g : LockGuard) (bodyOut : List Request) (bodyFails : Bool)
    (out : List Request) : List Request × Bool :=
  (lockExit g (out ++ bodyOut), bodyFails)

/-- The `raise Exception("Node lock error")` of `ClientAsync.lock`. -/
inductive LockError where
  | nodeLockError
  deriving DecidableEq, Repr

/-- The acquisition path of `ClientAsync.lock`, from the point where the
node id is chosen (either passed by the caller or the first available
node after `wait_for_status`): `lock_node` sends the lock request,
`reply` is the correlated result it waits for; `result is not None`
raises, otherwise a guard is returned.  Yields the outcome and the
outbox. -/
def lock (node_id_str : String) (reply : Option Err) (out : List Request) :
    Except LockError LockGuard × List Request :=
  let out' := out ++ [Request.lockNode node_id_str]
  match reply with
  | some _ => (Except.error LockError.nodeLockError, out')
  | none => (Except.ok { node_id_str := node_id_str }, out')

/-! ## `sleep` -/

/-- The argument of the `time.sleep` call inside `ClientAsync.sleep`:
`DEFAULT_SLEEP if duration < 0 else
 max(min(DEFAULT_SLEEP, t0 + duration - monotonic()), DEFAULT_SLEEP / 1e3)`,
with `remaining = t0 + duration - monotonic()`. -/
def sleepInterval (duration remaining : ℚ) : ℚ :=
  if duration < 0 then DEFAULT_SLEEP
  else max (min DEFAULT_SLEEP remaining) (DEFAULT_SLEEP / 1000)

/-- The `while duration < 0 or monotonic() < t0 + duration:` loop of
`ClientAsync.sleep`; `τ` is the current monotonic clock, advanced only by
the `time.sleep` of each iteration (pumping is instantaneous).  Returns
the clock value at which the loop exits. -/
def sleepLoop (t0 duration : ℚ) : Nat → ℚ → Option ℚ
  | 0, τ =>
    if duration < 0 ∨ τ < t0 + duration then none else some τ
  | fuel + 1, τ =>
    if duration < 0 ∨ τ < t0 + duration then
      sleepLoop t0 duration fuel (τ + sleepInterval duration (t0 + duration - τ))
    else some τ

/-- The delay of one unsatisfied tick of `ClientAsync.sleep`: the loop
body calls `self.process_waiting_messages()` and then sleeps
`sleepInterval` - the pump's return value (`progress`) is discarded, so
the delay does not depend on it. -/
def sleep_tick_delay (duration remaining : ℚ) (progress : Bool) : ℚ :=
  sleepInterval duration remaining

/-! ## The wake-predicate form of `sleep` (modelled from the spec) -/

/-- Modelled from the spec: the two-argument form `sleep(duration, wake)`
is called by `tools/run.py` (`await client.sleep(-1, wake)`) but the
`ClientAsync.sleep` in `clientasync.py` takes no wake predicate, so the
wake-handling code is missing from the sources.  Per the spec, the
negative-duration sleep waits forever, "optionally terminating early once
a supplied wake predicate becomes true", returning "on the first tick at
which `wake()` becomes true, regardless of total elapsed time".  `wake`
is the predicate's value at each poll tick, `τ` the monotonic clock
(advanced by the base interval each tick), `t` the current tick index;
the returned value is the tick at which the sleep ended. -/
def sleep_wake_run (wake : Nat → Bool) : Nat → ℚ → Nat → Option Nat
  | 0, _, _ => none
  | fuel + 1, τ, t =>
      if wake t then some t
      else sleep_wake_run wake fuel (τ + DEFAULT_SLEEP) (t + 1)

/-! ## `wait_for_node` and `wait_for_status`, tick level -/

/-- One tick of the `wait_for_node` loop: only when
`process_waiting_messages()` reported progress is the node list even
examined (returning if a node exists); a tick without progress sleeps
the base interval.  First component: the return, second: the delay. -/
def wfn_tick (progress : Bool) (nodes : List Node) : Option Unit × ℚ :=
  if progress then
    if (first_node nodes).isSome then (some (), 0) else (none, 0)
  else (none, DEFAULT_SLEEP)

/-- One tick of the `wait_for_status` loop: like `wfn_tick` but the
first node must also have the expected status. -/
def wfs_tick (progress : Bool) (nodes : List Node) (expected : Int) : Option Unit × ℚ :=
  if progress then
    match first_node nodes with
    | some n => if n.status = expected then (some (), 0) else (none, 0)
    | none => (none, 0)
  else (none, DEFAULT_SLEEP)

/-! ## The full `wait_for_node` loop -/

/-- The `while True:` loop of `ClientAsync.wait_for_node`.  `env k` is
what tick `k` observes of the Session: whether
`process_waiting_messages()` made progress, and the node list after that
pump.  Returns the tick at which the wait ended. -/
def wait_for_node_run (env : Nat → Bool × List Node) : Nat → Nat → Option Nat
  | 0, _ => none
  | fuel + 1, k =>
    if (env k).1 = true then
      if (first_node (env k).2).isSome then some k
      else wait_for_node_run env fuel (k + 1)
    else wait_for_node_run env fuel (k + 1)

/-- A Session that already knows one node but has no pending inbound
messages: every pump reports no progress and leaves the node list
unchanged. -/
def stalledEnv : Nat → Bool × List Node :=
  fun _ => (false, [{ node_id_str := "n0", status := 0 }])

/-- A Session that is empty at tick 0 and whose pump at every later tick
processes the message announcing node n0. -/
def appearEnv : Nat → Bool × List Node
  | 0 => (false, [])
  | _ + 1 => (true, [{ node_id_str := "n0", status := 0 }])

/-! ## The trampoline driver, quantum level -/

/-- An observable action of one scheduling quantum: a Session pump or a
`time.sleep` delay. -/
inductive Effect where
  | pump
  | delay (q : ℚ)
  deriving DecidableEq, Repr

/-- Number of Session pumps among a quantum's effects. -/
def pumpsIn (q : List Effect) : Nat :=
  q.countP (fun e => decide (e = Effect.pump))

/-- The quanta of a root task running `ClientAsync.sleep`: each
`co.send(None)` runs one loop iteration - pump, then `time.sleep` -
up to the yield; the final quantum runs the loop exit and the return,
performing no effect at all. -/
def sleep_quanta (t0 d : ℚ) : Nat → ℚ → List (List Effect)
  | 0, _ => []
  | fuel + 1, τ =>
    if d < 0 ∨ τ < t0 + d then
      [Effect.pump, Effect.delay (sleepInterval d (t0 + d - τ))] ::
        sleep_quanta t0 d fuel (τ + sleepInterval d (t0 + d - τ))
    else [[]]

/-- The driver `ClientAsync.run_async_program`: `co.send(None)` in a
loop until `StopIteration` - it resumes the task once per quantum and
performs no effect of its own, so a run's effects are exactly the
concatenation of the task's quanta. -/
def run_async_program (quanta : List (List Effect)) : List Effect :=
  quanta.flatten

/-! ## Formalized claim statements that the code refutes -/

/-- The single-write discipline claim C3 states: once `done` is set, a
further invocation of the completion callback leaves the stored result
unchanged. -/
def secondNotifyIgnored : Prop :=
  ∀ (s : FutureState Nat) (r : Nat), s.done = true → (notify s r).result = s.result

/-- The idempotence clause of claim C1: even if `__exit__` runs twice,
only one unlock request is sent. -/
def doubleExitSingleUnlock : Prop :=
  ∀ (g : LockGuard) (out : List Request),
    countUnlock g.node_id_str (lockExit g (lockExit g out)) =
      countUnlock g.node_id_str out + 1

/-- The shared polling pattern claim C6 states: on an unsatisfied tick,
every suspension primitive sleeps the base interval exactly when the
pump made no progress, and re-checks immediately (zero delay) when it
made progress. -/
def sharedPollingPattern : Prop :=
  (∀ (d r : ℚ) (p : Bool), sleep_tick_delay d r p = if p then 0 else DEFAULT_SLEEP) ∧
  (∀ p : Bool, smgr_tick_delay p = if p then 0 else DEFAULT_SLEEP) ∧
  (∀ (p : Bool) (ns : List Node), (wfn_tick p ns).2 = if p then 0 else DEFAULT_SLEEP) ∧
  (∀ (p : Bool) (ns : List Node) (e : Int), (wfs_tick p ns e).2 = if p then 0 else DEFAULT_SLEEP)

/-- The promptness claim C7 states: against any Session whose node list
changes only under a progressing pump, once the node list is non-empty
at some tick, `wait_for_node` returns within one further poll tick. -/
def waitForNodePrompt : Prop :=
  ∀ (env : Nat → Bool × List Node),
    (∀ k, (env (k + 1)).1 = false → (env (k + 1)).2 = (env k).2) →
    ∀ k, (env k).2 ≠ [] →
      ∃ fuel j, j ≤ k + 1 ∧ wait_for_node_run env fuel 0 = some j

/-- The driver claim C9 states: every resumption of the root task is a
quantum in which the Session gets pumped at least once. -/
def everyQuantumPumps : Prop :=
  ∀ (t0 d : ℚ) (fuel : Nat) (q : List Effect),
    q ∈ sleep_quanta t0 d fuel t0 → 1 ≤ pumpsIn q

/-! # Helper lemmas -/

/-- The per-iteration interval never exceeds the larger of the remaining
time and the floor `DEFAULT_SLEEP / 1000`. -/
theorem sleepInterval_le_max (d r : ℚ) (hd : 0 ≤ d) :
    sleepInterval d r ≤ max r (DEFAULT_SLEEP / 1000) := by
  rw [sleepInterval, if_neg (not_lt.mpr hd)]
  exact max_le_max (min_le_right _ _) le_rfl

/-- Invariant of the sleep loop: started at most `DEFAULT_SLEEP / 1000`
past the deadline, it stays there, and it only exits once the deadline
has passed. -/
theorem sleepLoop_bounds (t0 d : ℚ) (hd : 0 ≤ d) :
    ∀ (fuel : Nat) (τ : ℚ), τ ≤ t0 + d + DEFAULT_SLEEP / 1000 →
      ∀ τ', sleepLoop t0 d fuel τ = some τ' →
        t0 + d ≤ τ' ∧ τ' ≤ t0 + d + DEFAULT_SLEEP / 1000 := by
  intro fuel
  induction fuel with
  | zero =>
      intro τ hτ τ' h
      rw [sleepLoop] at h
      split at h
      · exact absurd h (by simp)
      · rename_i hc
        push_neg at hc
        cases h
        exact ⟨hc.2, hτ⟩
  | succ fuel ih =>
      intro τ hτ τ' h
      rw [sleepLoop] at h
      split at h
      · rename_i hc
        have hτd : τ < t0 + d := by
          rcases hc with hneg | hlt
          · exact absurd hneg (not_lt.mpr hd)
          · exact hlt
        refine ih _ ?_ τ' h
        have h1000 : (0 : ℚ) < DEFAULT_SLEEP / 1000 := by norm_num [DEFAULT_SLEEP]
        have hle := sleepInterval_le_max d (t0 + d - τ) hd
        rcases max_cases (t0 + d - τ) (DEFAULT_SLEEP / 1000) with ⟨he, _⟩ | ⟨he, _⟩ <;>
          rw [he] at hle <;> linarith
      · rename_i hc
        push_neg at hc
        cases h
        exact ⟨hc.2, hτ⟩

/-- Shifted-origin form of the first-true-tick property of the wake
sleep, for the induction on fuel. -/
theorem sleep_wake_run_aux (wake : Nat → Bool) :
    ∀ (fuel t k : Nat) (τ : ℚ), wake (k + t) = true →
      (∀ s, s < t → wake (k + s) = false) → t < fuel →
      sleep_wake_run wake fuel τ k = some (k + t) := by
  intro fuel
  induction fuel with
  | zero => intro t k τ _ _ hfuel; exact absurd hfuel (Nat.not_lt_zero t)
  | succ fuel ih =>
      intro t k τ hw hbefore hfuel
      rw [sleep_wake_run]
      cases t with
      | zero => simp at hw; simp [hw]
      | succ t =>
          have h0 : wake k = false := by
            have := hbefore 0 (Nat.succ_pos t)
            simpa using this
          rw [h0]
          simp only [Bool.false_eq_true, if_false]
          have hw' : wake (k + 1 + t) = true := by
            have he : k + 1 + t = k + (t + 1) := by omega
            rw [he]; exact hw
          have hb' : ∀ s, s < t → wake (k + 1 + s) = false := by
            intro s hs
            have he : k + 1 + s = k + (s + 1) := by omega
            rw [he]; exact hbefore (s + 1) (Nat.succ_lt_succ hs)
          have := ih t (k + 1) (τ + DEFAULT_SLEEP) hw' hb'
            (Nat.lt_of_succ_lt_succ hfuel)
          rw [this]
          congr 1
          omega

/-- Against the stalled Session, `wait_for_node` never returns: no pump
ever reports progress, so the node list is never examined. -/
theorem wait_for_node_run_stalled :
    ∀ fuel k, wait_for_node_run stalledEnv fuel k = none := by
  intro fuel
  induction fuel with
  | zero => intro k; rfl
  | succ fuel ih =>
      intro k
      rw [wait_for_node_run]
      simp [stalledEnv, ih]

/-- Whenever `wait_for_node` returns at tick `j`, the pump of tick `j`
reported progress and left a non-empty node list. -/
theorem wait_for_node_run_sound (env : Nat → Bool × List Node) :
    ∀ fuel k j, wait_for_node_run env fuel k = some j →
      (env j).1 = true ∧ (env j).2 ≠ [] := by
  intro fuel
  induction fuel with
  | zero => intro k j h; exact absurd h (by rw [wait_for_node_run]; simp)
  | succ fuel ih =>
      intro k j h
      rw [wait_for_node_run] at h
      split at h
      · rename_i hp
        split at h
        · rename_i hs
          cases h
          refine ⟨hp, ?_⟩
          intro he
          simp [first_node, he] at hs
        · exact ih (k + 1) j h
      · exact ih (k + 1) j h

/-- Shifted-origin form of the prompt-return property of
`wait_for_node`: it returns at the first tick (from its start) whose
pump reports progress with a non-empty node list. -/
theorem wait_for_node_run_first (env : Nat → Bool × List Node) :
    ∀ fuel j k,
      (∀ i, i < j → ¬((env (k + i)).1 = true ∧ (env (k + i)).2 ≠ [])) →
      (env (k + j)).1 = true → (env (k + j)).2 ≠ [] → j < fuel →
      wait_for_node_run env fuel k = some (k + j) := by
  intro fuel
  induction fuel with
  | zero => intro j k _ _ _ hfuel; exact absurd hfuel (Nat.not_lt_zero j)
  | succ fuel ih =>
      intro j k hbefore hp hne hfuel
      rw [wait_for_node_run]
      cases j with
      | zero =>
          simp only [Nat.add_zero] at hp hne
          have hs : (first_node (env k).2).isSome = true := by
            cases hnodes : (env k).2 with
            | nil => exact absurd hnodes hne
            | cons a l => simp [first_node, hnodes]
          rw [if_pos hp, if_pos hs]
          simp
      | succ j =>
          have h0 : ¬((env (k + 0)).1 = true ∧ (env (k + 0)).2 ≠ []) :=
            hbefore 0 (Nat.succ_pos j)
          simp only [Nat.add_zero] at h0
          have hrec : wait_for_node_run env fuel (k + 1) = some (k + 1 + j) := by
            refine ih j (k + 1) ?_ ?_ ?_ (Nat.lt_of_succ_lt_succ hfuel)
            · intro i hi
              have he : k + 1 + i = k + (i + 1) := by omega
              rw [he]
              exact hbefore (i + 1) (Nat.succ_lt_succ hi)
            · have he : k + 1 + j = k + (j + 1) := by omega
              rw [he]; exact hp
            · have he : k + 1 + j = k + (j + 1) := by omega
              rw [he]; exact hne
          have heq : k + 1 + j = k + (j + 1) := by omega
          by_cases hp0 : (env k).1 = true
          · have hs0 : ¬(first_node (env k).2).isSome := by
              intro hs
              refine h0 ⟨hp0, ?_⟩
              intro he
              rw [first_node, he] at hs
              simp at hs
            rw [if_pos hp0, if_neg hs0, hrec, heq]
          · rw [if_neg hp0, hrec, heq]

/-! # Claims -/

/-- C10: `watch` sends flags `0x3f` whatever `vars` and `events` are;
its observable behavior is independent of those two parameters. -/
theorem watch_ignores_variables_events :
    ∀ (n : String) (v e v' e' : Bool),
      watch n v e = watch n v' e' ∧ watch n v e = Request.watchNode n 0x3f := by
  intro n v e v' e'
  exact ⟨rfl, rfl⟩

/-- C5: if the completion callback fired synchronously inside the send
call (`syncReply = some r`), `send_msg_and_get_result` returns `r` with
zero poll ticks: the waiting loop is never entered, whatever the
environment and the fuel. -/
theorem smgr_sync_completion :
    ∀ (α : Type) (r : α) (env : Nat → Option α) (fuel : Nat),
      send_msg_and_get_result (some r) env fuel = some (some r, 0) := by
  intro α r env fuel
  rw [send_msg_and_get_result, smgr_loop.eq_def]
  simp [notify]

/-- C3 counterexample: a second invocation of `notify` is not ignored -
on the future holding `some 1` with `done = true`, `notify _ 2`
overwrites the stored result with `some 2`. -/
theorem notify_second_call_overwrites :
    ¬ secondNotifyIgnored := by
  intro h
  have := h { result := some 1, done := true } 2 rfl
  simp [notify] at this

/-- C3 amended: `done` transitions to `true` and stays `true`, but every
invocation of `notify` overwrites the stored result with its argument;
a second invocation replaces the previously stored value. -/
theorem notify_sets_done_and_overwrites :
    ∀ (α : Type) (s : FutureState α) (r : α),
      (notify s r).done = true ∧ notify s r = { result := some r, done := true } := by
  intro α s r
  exact ⟨rfl, rfl⟩

/-- C2: when the reply to the correlated lock request carries an error,
`lock` raises (`Except.error`) - no guard is returned - and the only
request added to the outbox is the lock request itself: no unlock is
ever sent for that attempt. -/
theorem lock_error_no_guard_no_unlock :
    ∀ (n : String) (e : Err) (out : List Request) (m : String),
      (lock n (some e) out).1 = Except.error LockError.nodeLockError ∧
      (lock n (some e) out).2 = out ++ [Request.lockNode n] ∧
      countUnlock m (lock n (some e) out).2 = countUnlock m out := by
  intro n e out m
  refine ⟨rfl, rfl, ?_⟩
  simp [lock, countUnlock]

/-- C1 counterexample: invoking `__exit__` twice on the guard for node
n0 starting from an empty outbox sends two unlock requests, not one -
`Lock.__exit__` has no released flag. -/
theorem lockExit_twice_sends_two :
    ¬ doubleExitSingleUnlock := by
  intro h
  have := h { node_id_str := "n0" } []
  simp [lockExit, countUnlock] at this

/-- C1 amended: leaving the guarded scope - by normal completion or by a
propagating failure alike - sends exactly one unlock request for the
guard's node id; but release is not idempotent: every further
`__exit__` invocation sends one more unlock request. -/
theorem withGuard_one_unlock_per_exit :
    ∀ (g : LockGuard) (bodyOut : List Request) (bodyFails : Bool) (out : List Request),
      countUnlock g.node_id_str (withGuard g bodyOut bodyFails out).1 =
        countUnlock g.node_id_str (out ++ bodyOut) + 1 ∧
      (withGuard g bodyOut bodyFails out).2 = bodyFails ∧
      countUnlock g.node_id_str (lockExit g (withGuard g bodyOut bodyFails out).1) =
        countUnlock g.node_id_str (out ++ bodyOut) + 2 := by
  intro g bodyOut bodyFails out
  refine ⟨?_, rfl, ?_⟩ <;>
    · simp [withGuard, lockExit, countUnlock]
      omega

/-- C8: for `d ≥ 0`, whenever `sleep(d)` started at `t0` returns (at
clock `τ`), the elapsed time is at least `d` and the overshoot is at
most one base poll interval; moreover the per-tick sleep interval is
monotone in the remaining time (it shrinks as the deadline nears), is
floored at `DEFAULT_SLEEP / 1000`, and never exceeds `DEFAULT_SLEEP`. -/
theorem sleep_elapsed_overshoot_shrink :
    ∀ (t0 d τ r r' : ℚ) (fuel : Nat),
      0 ≤ d → 0 ≤ r' → r' ≤ r → sleepLoop t0 d fuel t0 = some τ →
      (d ≤ τ - t0 ∧ τ - t0 ≤ d + DEFAULT_SLEEP) ∧
      sleepInterval d r' ≤ sleepInterval d r ∧
      DEFAULT_SLEEP / 1000 ≤ sleepInterval d r' ∧
      sleepInterval d r ≤ DEFAULT_SLEEP := by
  intro t0 d τ r r' fuel hd hr' hrr h
  have hbase : (0 : ℚ) < DEFAULT_SLEEP := by norm_num [DEFAULT_SLEEP]
  have hb := sleepLoop_bounds t0 d hd fuel t0 (by linarith) τ h
  refine ⟨⟨by linarith [hb.1], by linarith [hb.2]⟩, ?_, ?_, ?_⟩
  · rw [sleepInterval, if_neg (not_lt.mpr hd), sleepInterval, if_neg (not_lt.mpr hd)]
    exact max_le_max (min_le_min le_rfl hrr) le_rfl
  · rw [sleepInterval, if_neg (not_lt.mpr hd)]
    exact le_max_right _ _
  · rw [sleepInterval, if_neg (not_lt.mpr hd)]
    exact max_le (min_le_left _ _) (by norm_num [DEFAULT_SLEEP])

/-- C8 witness: a concrete run of `sleep(1/20)` from `t0 = 0` exits at
clock `1/20` and satisfies the elapsed/overshoot/shrink bounds. -/
theorem sleep_elapsed_overshoot_shrink_witness :
    ((1 : ℚ) / 20 ≤ 1 / 20 - 0 ∧ (1 : ℚ) / 20 - 0 ≤ 1 / 20 + DEFAULT_SLEEP) ∧
      sleepInterval (1 / 20) (1 / 40) ≤ sleepInterval (1 / 20) (1 / 30) ∧
      DEFAULT_SLEEP / 1000 ≤ sleepInterval (1 / 20) (1 / 40) ∧
      sleepInterval (1 / 20) (1 / 30) ≤ DEFAULT_SLEEP :=
  sleep_elapsed_overshoot_shrink 0 (1 / 20) (1 / 20) (1 / 30) (1 / 40) 2
    (by norm_num) (by norm_num) (by norm_num)
    (by norm_num [sleepLoop, sleepInterval, DEFAULT_SLEEP])

/-- C4: `sleep(-1, wake)` (modelled from the spec, the wake-predicate
form being absent from `clientasync.py`) returns on the first poll tick
at which `wake()` is true, for every fuel large enough and every
starting clock value - i.e. regardless of total elapsed time. -/
theorem sleep_wake_first_true_tick :
    ∀ (wake : Nat → Bool) (t fuel : Nat) (τ : ℚ),
      wake t = true → (∀ s, s < t → wake s = false) → t < fuel →
      sleep_wake_run wake fuel τ 0 = some t := by
  intro wake t fuel τ hw hbefore hfuel
  have := sleep_wake_run_aux wake fuel t 0 τ (by simpa using hw)
    (fun s hs => by simpa using hbefore s hs) hfuel
  simpa using this

/-- C4 witness: the predicate that first becomes true at tick 2 wakes
the sleep at tick 2, with fuel 5 and starting clock 7. -/
theorem sleep_wake_first_true_tick_witness :
    sleep_wake_run (fun s => decide (2 ≤ s)) 5 7 0 = some 2 :=
  sleep_wake_first_true_tick (fun s => decide (2 ≤ s)) 2 5 7 (by decide)
    (by decide) (by decide)

/-- C6 counterexample: the shared polling pattern does not hold of all
four primitives - an unsatisfied tick of `sleep(-1)` sleeps the base
interval even when the pump reported progress. -/
theorem sleep_always_delays_despite_progress :
    ¬ sharedPollingPattern := by
  intro h
  have := h.1 (-1) 0 true
  norm_num [sleep_tick_delay, sleepInterval, DEFAULT_SLEEP] at this

/-- C6 amended: `wait_for_node` and `wait_for_status` do follow the
pattern (base-interval delay exactly when the pump made no progress,
immediate re-check otherwise), but `sleep` always sleeps its interval -
which is strictly positive and independent of pump progress - and
`send_msg_and_get_result` always sleeps the base interval on an
unsatisfied tick; all four resume with no extra delay once their
condition is satisfied (`sleep` past its deadline returns at once, a
completed future is returned at once). -/
theorem polling_pattern_amended :
    ∀ (d r t0 τ : ℚ) (p : Bool) (ns : List Node) (e : Int) (fuel k v : Nat)
      (env : Nat → Option Nat),
      ¬ (d < 0 ∨ τ < t0 + d) →
      ((wfn_tick p ns).2 = if p then 0 else DEFAULT_SLEEP) ∧
      ((wfs_tick p ns e).2 = if p then 0 else DEFAULT_SLEEP) ∧
      sleep_tick_delay d r p = sleepInterval d r ∧
      0 < sleep_tick_delay d r p ∧
      smgr_tick_delay p = DEFAULT_SLEEP ∧
      sleepLoop t0 d fuel τ = some τ ∧
      smgr_loop env { result := some v, done := true } fuel k = some (some v, k) := by
  intro d r t0 τ p ns e fuel k v env h
  refine ⟨?_, ?_, rfl, ?_, rfl, ?_, ?_⟩
  · cases p with
    | false => simp [wfn_tick]
    | true =>
        by_cases hs : (first_node ns).isSome <;> simp [wfn_tick, hs]
  · cases p with
    | false => simp [wfs_tick]
    | true =>
        cases hfn : first_node ns with
        | none => simp [wfs_tick, hfn]
        | some n => by_cases hst : n.status = e <;> simp [wfs_tick, hfn, hst]
  · rw [sleep_tick_delay, sleepInterval]
    split
    · norm_num [DEFAULT_SLEEP]
    · exact lt_of_lt_of_le (by norm_num [DEFAULT_SLEEP]) (le_max_right _ _)
  · cases fuel with
    | zero => rw [sleepLoop, if_neg h]
    | succ fuel => rw [sleepLoop, if_neg h]
  · rw [smgr_loop.eq_def]
    simp

/-- C6 amended witness: a concrete instantiation - a progressing tick of
`wait_for_node` with a known node delays 0, `sleep(1)` already past its
deadline returns at once, and a completed future is returned with no
further tick. -/
theorem polling_pattern_amended_witness :
    ((wfn_tick true [{ node_id_str := "n0", status := 0 }]).2 =
        if true then 0 else DEFAULT_SLEEP) ∧
      ((wfs_tick true [{ node_id_str := "n0", status := 0 }] 0).2 =
        if true then 0 else DEFAULT_SLEEP) ∧
      sleep_tick_delay 1 2 true = sleepInterval 1 2 ∧
      0 < sleep_tick_delay 1 2 true ∧
      smgr_tick_delay true = DEFAULT_SLEEP ∧
      sleepLoop 0 1 3 5 = some 5 ∧
      smgr_loop (fun _ => none) { result := some 9, done := true } 3 4 = some (some 9, 4) :=
  polling_pattern_amended 1 2 0 5 true [{ node_id_str := "n0", status := 0 }] 0 3 4 9
    (fun _ => none) (by norm_num)

/-- C7 counterexample: `wait_for_node` can fail to return within one
poll tick of a node being in the list - against a Session that already
knows a node but processes no further message, no pump reports progress,
the node list is never examined, and the wait never returns. -/
theorem wait_for_node_can_stall :
    ¬ waitForNodePrompt := by
  intro h
  obtain ⟨fuel, j, -, hrun⟩ := h stalledEnv (fun k _ => rfl) 0 (by simp [stalledEnv])
  rw [wait_for_node_run_stalled] at hrun
  exact Option.noConfusion hrun

/-- C7 amended: `wait_for_node` never returns while the node list is
empty - it returns only at a tick whose pump reported progress and left
a non-empty node list - and it returns at the first such tick; in
particular it returns within the same tick in which a processed message
makes a node appear, but a node list that is already non-empty does not
by itself make it return. -/
theorem wait_for_node_returns_amended :
    ∀ (env : Nat → Bool × List Node) (fuel k j : Nat),
      (wait_for_node_run env fuel k = some j →
        (env j).1 = true ∧ (env j).2 ≠ []) ∧
      ((∀ i, i < j → ¬((env i).1 = true ∧ (env i).2 ≠ [])) →
        (env j).1 = true → (env j).2 ≠ [] → j < fuel →
        wait_for_node_run env fuel 0 = some j) := by
  intro env fuel k j
  constructor
  · exact wait_for_node_run_sound env fuel k j
  · intro hbefore hp hne hfuel
    have := wait_for_node_run_first env fuel j 0
      (fun i hi => by simpa using hbefore i hi) (by simpa using hp)
      (by simpa using hne) hfuel
    simpa using this

/-- C7 amended witness: against the Session whose pump first makes the
node appear at tick 1, `wait_for_node` returns at tick 1, a progressing
tick with a non-empty node list. -/
theorem wait_for_node_returns_amended_witness :
    wait_for_node_run appearEnv 3 0 = some 1 ∧
      ((appearEnv 1).1 = true ∧ (appearEnv 1).2 ≠ []) := by
  have h := (wait_for_node_returns_amended appearEnv 3 0 1).2
    (by decide) (by decide) (by decide) (by decide)
  exact ⟨h, (wait_for_node_returns_amended appearEnv 3 0 1).1 h⟩

/-- C9 counterexample: not every resumption pumps - the root task
`sleep(0)` completes in a single quantum that performs no pump at all
(the driver itself never pumps), so a whole driver run can contain zero
pump effects. -/
theorem zero_duration_sleep_quantum_no_pump :
    ¬ everyQuantumPumps ∧ run_async_program (sleep_quanta 0 0 1 0) = [] := by
  constructor
  · intro h
    have hq : sleep_quanta 0 0 1 0 = [[]] := by
      norm_num [sleep_quanta]
    have := h 0 0 1 [] (by rw [hq]; simp)
    simp [pumpsIn] at this
  · have hq : sleep_quanta 0 0 1 0 = [[]] := by
      norm_num [sleep_quanta]
    rw [run_async_program, hq]
    rfl

/-- C9 amended: the driver adds no pumping of its own - the pumps of a
whole `run_async_program` run are exactly the sum of the pumps of the
task's quanta - and for a `sleep` root task every quantum pumps exactly
once except the final returning quantum, which pumps zero times. -/
theorem driver_pump_accounting :
    ∀ (quanta : List (List Effect)) (t0 d τ : ℚ) (fuel : Nat) (q : List Effect),
      pumpsIn (run_async_program quanta) = (quanta.map pumpsIn).sum ∧
      (q ∈ sleep_quanta t0 d fuel τ → pumpsIn q = 1 ∨ q = []) := by
  intro quanta t0 d τ fuel q
  constructor
  · rw [run_async_program, pumpsIn, List.countP_flatten]
    rfl
  · intro hq
    induction fuel generalizing τ with
    | zero => rw [sleep_quanta] at hq; exact absurd hq (by simp)
    | succ fuel ih =>
        rw [sleep_quanta] at hq
        split at hq
        · rcases List.mem_cons.mp hq with hq | hq
          · left
            rw [hq, pumpsIn]
            simp
          · exact ih _ hq
        · right
          simpa using hq

/-- C9 amended witness: a concrete driver run of one pumping quantum has
one pump in total, and the final quantum of `sleep(0)` is the effect-free
one. -/
theorem driver_pump_accounting_witness :
    (pumpsIn (run_async_program [[Effect.pump]]) = ([[Effect.pump]].map pumpsIn).sum ∧
      (pumpsIn [] = 1 ∨ ([] : List Effect) = [])) :=
  ⟨(driver_pump_accounting [[Effect.pump]] 0 0 0 1 []).1,
   (driver_pump_accounting [[Effect.pump]] 0 0 0 1 []).2
     (by norm_num [sleep_quanta])⟩
